import Mathlib

/-! Shallow embedding of the sofa-serialize core (src/decoder.rs, src/encoder.rs,
src/decoder_error.rs, src/encoder_error.rs).

Bytes are Nat values below 256; byte streams are List Nat consumed from the
front.  Multi-byte integers are modelled by their little-endian byte sequences
(the byteorder crate with LittleEndian); the signed-integer and float event
payloads are carried as raw little-endian bit patterns, which is exactly what
the wire stores and what the fixed-width reads and writes move around.  A Rust
panic is modelled by a distinguished result constructor, since the Rust
functions do not return in that case.  The byte sinks and sources are
in-memory buffers, so the only IO failure that can occur is running out of
input bytes, which the byteorder crate surfaces as its own error and the
From impls of decoder_error.rs and encoder_error.rs wrap as the IoError
variant of the typed error enums. -/

set_option linter.unusedVariables false

/-- Event enum from src/decoder.rs.  Payloads of the fixed-width integer and
float variants are little-endian bit patterns as Nat; Binary, String and
Fixnum payloads are the raw borrowed byte views as List Nat.  The Rust
constructor End is written end_ because end is a Lean keyword. -/
inductive Event where
  | nil
  | boolean (b : Bool)
  | u8 (v : Nat)
  | u16 (v : Nat)
  | u32 (v : Nat)
  | u64 (v : Nat)
  | i8 (v : Nat)
  | i16 (v : Nat)
  | i32 (v : Nat)
  | i64 (v : Nat)
  | fixnum (v : List Nat)
  | f32 (v : Nat)
  | f64 (v : Nat)
  | binary (v : List Nat)
  | string (v : List Nat)
  | startArray (v : Option Nat)
  | startStruct (v : Option Nat)
  | startMap (v : Option Nat)
  | startOpenStruct (v : Option Nat)
  | end_
  deriving DecidableEq

/-- Little-endian byte sequence of width w for the value v, as written by the
byteorder write_uXX and write_iXX and write_fXX calls (w bytes, least
significant first). -/
def leBytes : Nat → Nat → List Nat
  | 0, _ => []
  | w + 1, v => v % 256 :: leBytes w (v / 256)

/-- Little-endian fixed-width read of w bytes from the front of the input, as
performed by the byteorder read_uXX calls; none models the byteorder
end-of-file error (not enough bytes). -/
def readLE : Nat → List Nat → Option (Nat × List Nat)
  | 0, input => some (0, input)
  | _ + 1, [] => none
  | w + 1, b :: rest =>
    match readLE w rest with
    | some (v, r) => some (b + 256 * v, r)
    | none => none

/-- Acceptance of str::from_utf8, as a byte-driven automaton over the Unicode
well-formed byte sequence table: pending is the number of continuation bytes
still expected, and lo and hi bound the next byte while pending is positive
(the bounds reset to the plain continuation range 80..BF after the first
continuation byte of a sequence). -/
def utf8ValidAux : Nat → Nat → Nat → List Nat → Bool
  | 0, _, _, [] => true
  | _ + 1, _, _, [] => false
  | 0, _, _, b :: rest =>
    if b ≤ 0x7F then utf8ValidAux 0 0 0 rest
    else if 0xC2 ≤ b && b ≤ 0xDF then utf8ValidAux 1 0x80 0xBF rest
    else if b = 0xE0 then utf8ValidAux 2 0xA0 0xBF rest
    else if 0xE1 ≤ b && b ≤ 0xEC then utf8ValidAux 2 0x80 0xBF rest
    else if b = 0xED then utf8ValidAux 2 0x80 0x9F rest
    else if 0xEE ≤ b && b ≤ 0xEF then utf8ValidAux 2 0x80 0xBF rest
    else if b = 0xF0 then utf8ValidAux 3 0x90 0xBF rest
    else if 0xF1 ≤ b && b ≤ 0xF3 then utf8ValidAux 3 0x80 0xBF rest
    else if b = 0xF4 then utf8ValidAux 3 0x80 0x8F rest
    else false
  | k + 1, lo, hi, b :: rest =>
    if lo ≤ b && b ≤ hi then utf8ValidAux k 0x80 0xBF rest
    else false

/-- UTF-8 validity of a byte sequence, the acceptance condition of
str::from_utf8 used by Decoder::read_string_data. -/
def utf8Valid (l : List Nat) : Bool := utf8ValidAux 0 0 0 l

namespace Decoder

/-- ErrorCode enum from src/decoder_error.rs (also duplicated at the top of
src/decoder.rs). -/
inductive ErrorCode where
  | endOfStream
  | invalidDictionaryIndex
  | invalidLength
  | invalidType
  | invalidUTF8
  | unexpectedEOF
  deriving DecidableEq

/-- DecoderError enum from src/decoder_error.rs: a typed stream error, or a
wrapped untyped IO error (the From impl for the byteorder error funnels a
byteorder end-of-file into IoError, not into a stream error code). -/
inductive DecoderError where
  | streamError (c : ErrorCode)
  | ioError
  deriving DecidableEq

/-- Result of one Decoder::read call: Ok(Some(event)) with the remaining input
and updated stack, Ok(None) for clean end of stream, a DecoderError, or a
panic (the unimplemented Fixnum tag 0x18). -/
inductive DecResult where
  | ok (e : Option Event) (input : List Nat) (stack : List Nat)
  | err (e : DecoderError)
  | panicked
  deriving DecidableEq

/-- Decoder::read_length from src/decoder.rs lines 103 to 116. -/
def read_length (input : List Nat) : Except DecoderError (Nat × List Nat) :=
  match input with
  | [] => .error .ioError
  | x :: rest =>
    if x < 0xEF then .ok (x, rest)
    else if x = 0xF1 then
      match readLE 1 rest with
      | some p => .ok p
      | none => .error .ioError
    else if x = 0xF2 then
      match readLE 2 rest with
      | some p => .ok p
      | none => .error .ioError
    else if x = 0xF3 then
      match readLE 4 rest with
      | some p => .ok p
      | none => .error .ioError
    else if x = 0xF4 then
      match readLE 8 rest with
      | some p => .ok p
      | none => .error .ioError
    else .error (.streamError .invalidLength)

/-- Decoder::read_binary from src/decoder.rs. -/
def read_binary (input : List Nat) : Except DecoderError (List Nat × List Nat) :=
  match read_length input with
  | .error e => .error e
  | .ok (length, rest) =>
    if length > rest.length then .error (.streamError .unexpectedEOF)
    else .ok (rest.take length, rest.drop length)

/-- Decoder::read_dictionary from src/decoder.rs. -/
def read_dictionary (dict : List (List Nat)) (index : Nat) : Except DecoderError (List Nat) :=
  match dict[index]? with
  | some s => .ok s
  | none => .error (.streamError .invalidDictionaryIndex)

/-- Decoder::read_string_data from src/decoder.rs. -/
def read_string_data (length : Nat) (input : List Nat) : Except DecoderError (List Nat × List Nat) :=
  if length > input.length then .error (.streamError .unexpectedEOF)
  else if utf8Valid (input.take length) then .ok (input.take length, input.drop length)
  else .error (.streamError .invalidUTF8)

/-- Decoder::read_string from src/decoder.rs: inline length below 0xEF, the
explicit width length markers 0xF1 to 0xF4, the dictionary index markers 0xF5
to 0xF8, and InvalidLength otherwise. -/
def read_string (dict : List (List Nat)) (input : List Nat) :
    Except DecoderError (List Nat × List Nat) :=
  match input with
  | [] => .error .ioError
  | x :: rest =>
    if x < 0xEF then read_string_data x rest
    else if x = 0xF1 then
      match readLE 1 rest with
      | some (v, r) => read_string_data v r
      | none => .error .ioError
    else if x = 0xF2 then
      match readLE 2 rest with
      | some (v, r) => read_string_data v r
      | none => .error .ioError
    else if x = 0xF3 then
      match readLE 4 rest with
      | some (v, r) => read_string_data v r
      | none => .error .ioError
    else if x = 0xF4 then
      match readLE 8 rest with
      | some (v, r) => read_string_data v r
      | none => .error .ioError
    else if x = 0xF5 then
      match readLE 1 rest with
      | some (i, r) =>
        match read_dictionary dict i with
        | .ok s => .ok (s, r)
        | .error e => .error e
      | none => .error .ioError
    else if x = 0xF6 then
      match readLE 2 rest with
      | some (i, r) =>
        match read_dictionary dict i with
        | .ok s => .ok (s, r)
        | .error e => .error e
      | none => .error .ioError
    else if x = 0xF7 then
      match readLE 4 rest with
      | some (i, r) =>
        match read_dictionary dict i with
        | .ok s => .ok (s, r)
        | .error e => .error e
      | none => .error .ioError
    else if x = 0xF8 then
      match readLE 8 rest with
      | some (i, r) =>
        match read_dictionary dict i with
        | .ok s => .ok (s, r)
        | .error e => .error e
      | none => .error .ioError
    else .error (.streamError .invalidLength)

/-- Decoder::read from src/decoder.rs lines 202 to 293: pop the current frame
count; a zero count emits End, or the clean end of stream when the root frame
closed; otherwise one tag byte is read and dispatched in the source order,
constant tags first and the bit-pattern guards after them. -/
def read (dict : List (List Nat)) (input : List Nat) (stack : List Nat) : DecResult :=
  match stack with
  | [] => .err (.streamError .endOfStream)
  | remaining :: rest =>
    if remaining = 0 then
      if rest.length = 0 then .ok none input []
      else .ok (some Event.end_) input rest
    else
      match input with
      | [] => .err .ioError
      | x :: inp =>
        if x = 0x01 then .ok (some .nil) inp ((remaining - 1) :: rest)
        else if x = 0x02 then .ok (some (.boolean false)) inp ((remaining - 1) :: rest)
        else if x = 0x03 then .ok (some (.boolean true)) inp ((remaining - 1) :: rest)
        else if x = 0x08 then
          match read_binary inp with
          | .ok (v, r) => .ok (some (.binary v)) r ((remaining - 1) :: rest)
          | .error e => .err e
        else if x = 0x09 then
          match read_string dict inp with
          | .ok (s, r) => .ok (some (.string s)) r ((remaining - 1) :: rest)
          | .error e => .err e
        else if x = 0x0A then
          match read_length inp with
          | .ok (length, r) => .ok (some (.startArray (some length))) r (length :: (remaining - 1) :: rest)
          | .error e => .err e
        else if x = 0x0B then
          match read_length inp with
          | .ok (length, r) =>
            .ok (some (.startStruct (some length))) r ((length + 1) :: (remaining - 1) :: rest)
          | .error e => .err e
        else if x = 0x0C then
          match read_length inp with
          | .ok (length, r) =>
            .ok (some (.startMap (some length))) r (2 * length :: (remaining - 1) :: rest)
          | .error e => .err e
        else if x = 0x0D then
          match read_length inp with
          | .ok (length, r) =>
            .ok (some (.startOpenStruct (some length))) r ((2 * length + 1) :: (remaining - 1) :: rest)
          | .error e => .err e
        else if x = 0x10 then
          match readLE 1 inp with
          | some (v, r) => .ok (some (.u8 v)) r ((remaining - 1) :: rest)
          | none => .err .ioError
        else if x = 0x11 then
          match readLE 2 inp with
          | some (v, r) => .ok (some (.u16 v)) r ((remaining - 1) :: rest)
          | none => .err .ioError
        else if x = 0x12 then
          match readLE 4 inp with
          | some (v, r) => .ok (some (.u32 v)) r ((remaining - 1) :: rest)
          | none => .err .ioError
        else if x = 0x13 then
          match readLE 8 inp with
          | some (v, r) => .ok (some (.u64 v)) r ((remaining - 1) :: rest)
          | none => .err .ioError
        else if x = 0x14 then
          match readLE 1 inp with
          | some (v, r) => .ok (some (.i8 v)) r ((remaining - 1) :: rest)
          | none => .err .ioError
        else if x = 0x15 then
          match readLE 2 inp with
          | some (v, r) => .ok (some (.i16 v)) r ((remaining - 1) :: rest)
          | none => .err .ioError
        else if x = 0x16 then
          match readLE 4 inp with
          | some (v, r) => .ok (some (.i32 v)) r ((remaining - 1) :: rest)
          | none => .err .ioError
        else if x = 0x17 then
          match readLE 8 inp with
          | some (v, r) => .ok (some (.i64 v)) r ((remaining - 1) :: rest)
          | none => .err .ioError
        else if x = 0x18 then .panicked
        else if x = 0x1A then
          match readLE 4 inp with
          | some (v, r) => .ok (some (.f32 v)) r ((remaining - 1) :: rest)
          | none => .err .ioError
        else if x = 0x1B then
          match readLE 8 inp with
          | some (v, r) => .ok (some (.f64 v)) r ((remaining - 1) :: rest)
          | none => .err .ioError
        else if x &&& 0b10000000 = 0b10000000 then
          match read_dictionary dict (x &&& 0b01111111) with
          | .ok s => .ok (some (.string s)) inp ((remaining - 1) :: rest)
          | .error e => .err e
        else if x &&& 0b11100000 = 0b01100000 then
          match read_string_data (x &&& 0b00011111) inp with
          | .ok (s, r) => .ok (some (.string s)) r ((remaining - 1) :: rest)
          | .error e => .err e
        else if x &&& 0b11110000 = 0b00100000 then
          .ok (some (.startArray (some (x &&& 0b00001111)))) inp
            ((x &&& 0b00001111) :: (remaining - 1) :: rest)
        else if x &&& 0b11110000 = 0b00110000 then
          .ok (some (.startMap (some (x &&& 0b00001111)))) inp
            (2 * (x &&& 0b00001111) :: (remaining - 1) :: rest)
        else .err (.streamError .invalidType)

/-- Repeatedly call Decoder::read from a state until the clean end-of-stream
signal Ok(None), collecting the events (the Iterator impl of the decoder
does the same, unwrapping on errors); the result is some list only when the
clean end is reached within the given number of calls, never on an error or
panic. -/
def readEvents (dict : List (List Nat)) : Nat → List Nat → List Nat → Option (List Event)
  | 0, _, _ => none
  | fuel + 1, input, stack =>
    match read dict input stack with
    | .ok none _ _ => some []
    | .ok (some e) input2 stack2 =>
      match readEvents dict fuel input2 stack2 with
      | some es => some (e :: es)
      | none => none
    | _ => none

/-- True exactly on the four structural start events. -/
def isStart : Event → Bool
  | .startArray _ => true
  | .startStruct _ => true
  | .startMap _ => true
  | .startOpenStruct _ => true
  | _ => false

/-- Number of structural start events in a decoded sequence. -/
def countStart (es : List Event) : Nat := es.countP isStart

/-- Number of End events in a decoded sequence. -/
def countEnd (es : List Event) : Nat := es.count Event.end_

end Decoder

namespace Encoder

/-- ErrorCode enum from src/encoder_error.rs: exactly these four codes exist
on the encoder side. -/
inductive ErrorCode where
  | endOfStream
  | invalidDictionaryIndex
  | invalidEnd
  | missingEnd
  deriving DecidableEq

/-- EncoderError enum from src/encoder_error.rs. -/
inductive EncoderError where
  | streamError (c : ErrorCode)
  | ioError
  deriving DecidableEq

/-- Size enum from src/encoder.rs: a known remaining count, or the streaming
accounting triple (events written, modulo, required). -/
inductive Size where
  | u64 (v : Nat)
  | streaming (n modulo required : Nat)
  deriving DecidableEq

/-- Result of one Encoder::write call: the bytes appended to the writer and
the updated stack, or a typed error together with the stack the encoder is
left with (the Rust method has already popped the offending frame when it
returns an error), or a panic. -/
inductive EncResult where
  | ok (out : List Nat) (stack : List Size)
  | err (e : EncoderError) (stack : List Size)
  | panicked
  deriving DecidableEq

/-- Encoder::push_stack from src/encoder.rs: re-push the popped frame with a
known count decremented or the streaming event count incremented. -/
def push_stack : Size → Size
  | .u64 s => .u64 (s - 1)
  | .streaming n modulo required => .streaming (n + 1) modulo required

/-- Encoder::write_length from src/encoder.rs lines 31 to 40: a single byte
for a known length below 0xEF, and a panic (none) for everything else,
including every streaming size. -/
def write_length : Size → Option (List Nat)
  | .u64 length => if length < 0xEF then some [length] else none
  | .streaming _ _ _ => none

/-- Helper for the index the HashMap built by Encoder::new assigns to s: the
dictionary entries are inserted in order, so a later duplicate overwrites an
earlier one and the map holds the position of the last occurrence. -/
def dictIndexFrom : List (List Nat) → List Nat → Nat → Option Nat
  | [], _, _ => none
  | e :: rest, s, k =>
    match dictIndexFrom rest s (k + 1) with
    | some i => some i
    | none => if e = s then some k else none

/-- Dictionary lookup of Encoder::write_string (self.dictionary.get(s)). -/
def dictIndex (dict : List (List Nat)) (s : List Nat) : Option Nat :=
  dictIndexFrom dict s 0

/-- Encoder::write_string from src/encoder.rs lines 43 to 59: a dictionary
resident string becomes the single byte index | 0b10000000 when the index
fits in seven bits and panics otherwise; a non-dictionary string becomes the
general literal form 0x09, write_length of the byte length, then the bytes. -/
def write_string (dict : List (List Nat)) (s : List Nat) : Option (List Nat) :=
  match dictIndex dict s with
  | some i =>
    if i ≤ 0b01111111 then some [i ||| 0b10000000] else none
  | none =>
    match write_length (.u64 s.length) with
    | some lb => some (0x09 :: lb ++ s)
    | none => none

/-- Encoder::write from src/encoder.rs lines 76 to 246.  The stack is popped;
a popped U64(0) frame only accepts End (closing it, or failing EndOfStream at
the root); any other frame dispatches on the event, appending the encoded
bytes and re-pushing via push_stack, with the structural starts pushing their
new frame on top. -/
def write (dict : List (List Nat)) (stack : List Size) (event : Event) : EncResult :=
  match stack with
  | [] => .err (.streamError .endOfStream) []
  | remaining :: rest =>
    if remaining = Size.u64 0 then
      if event ≠ Event.end_ then .err (.streamError .missingEnd) rest
      else if rest.length ≠ 0 then .ok [] rest
      else .err (.streamError .endOfStream) rest
    else
      match event with
      | .nil => .ok [0x01] (push_stack remaining :: rest)
      | .boolean false => .ok [0x02] (push_stack remaining :: rest)
      | .boolean true => .ok [0x03] (push_stack remaining :: rest)
      | .u8 v => .ok (0x10 :: leBytes 1 v) (push_stack remaining :: rest)
      | .u16 v => .ok (0x11 :: leBytes 2 v) (push_stack remaining :: rest)
      | .u32 v => .ok (0x12 :: leBytes 4 v) (push_stack remaining :: rest)
      | .u64 v => .ok (0x13 :: leBytes 8 v) (push_stack remaining :: rest)
      | .i8 v => .ok (0x14 :: leBytes 1 v) (push_stack remaining :: rest)
      | .i16 v => .ok (0x15 :: leBytes 2 v) (push_stack remaining :: rest)
      | .i32 v => .ok (0x16 :: leBytes 4 v) (push_stack remaining :: rest)
      | .i64 v => .ok (0x17 :: leBytes 8 v) (push_stack remaining :: rest)
      | .fixnum _ => .panicked
      | .f32 v => .ok (0x1A :: leBytes 4 v) (push_stack remaining :: rest)
      | .f64 v => .ok (0x1B :: leBytes 8 v) (push_stack remaining :: rest)
      | .binary v =>
        match write_length (.u64 v.length) with
        | some lb => .ok (0x08 :: lb ++ v) (push_stack remaining :: rest)
        | none => .panicked
      | .string v =>
        match write_string dict v with
        | some out => .ok out (push_stack remaining :: rest)
        | none => .panicked
      | .startArray v =>
        match v with
        | some length =>
          if length < 0b00001111 then
            .ok [0b00100000 ||| length] (Size.u64 length :: push_stack remaining :: rest)
          else
            match write_length (Size.u64 length) with
            | some lb => .ok (0x0A :: lb) (Size.u64 length :: push_stack remaining :: rest)
            | none => .panicked
        | none =>
          match write_length (Size.streaming 0 1 0) with
          | some lb => .ok (0x0A :: lb) (Size.streaming 0 1 0 :: push_stack remaining :: rest)
          | none => .panicked
      | .startStruct v =>
        match v with
        | some size =>
          match write_length (Size.u64 size) with
          | some lb => .ok (0x0B :: lb) (Size.u64 (1 + size) :: push_stack remaining :: rest)
          | none => .panicked
        | none =>
          match write_length (Size.streaming 0 1 1) with
          | some lb => .ok (0x0B :: lb) (Size.streaming 0 1 1 :: push_stack remaining :: rest)
          | none => .panicked
      | .startMap v =>
        match v with
        | some length =>
          if length < 0b00001111 then
            .ok [0b00110000 ||| length] (Size.u64 (2 * length) :: push_stack remaining :: rest)
          else
            match write_length (Size.u64 (2 * length)) with
            | some lb => .ok (0x0C :: lb) (Size.u64 (2 * length) :: push_stack remaining :: rest)
            | none => .panicked
        | none =>
          match write_length (Size.streaming 0 2 0) with
          | some lb => .ok (0x0C :: lb) (Size.streaming 0 2 0 :: push_stack remaining :: rest)
          | none => .panicked
      | .startOpenStruct v =>
        match v with
        | some size =>
          match write_length (Size.u64 size) with
          | some lb =>
            .ok (0x0D :: lb) (Size.u64 (1 + 2 * size) :: push_stack remaining :: rest)
          | none => .panicked
        | none =>
          match write_length (Size.streaming 0 2 1) with
          | some lb => .ok (0x0D :: lb) (Size.streaming 0 2 1 :: push_stack remaining :: rest)
          | none => .panicked
      | .end_ =>
        match remaining with
        | Size.streaming n modulo required =>
          if required ≤ n ∧ n % modulo = required then .ok [] rest
          else .err (.streamError .invalidEnd) rest
        | Size.u64 0 => .ok [] rest
        | Size.u64 _ => .err (.streamError .invalidEnd) rest

/-- Feed a whole event sequence to Encoder::write, concatenating the emitted
bytes; the first error or panic aborts the run (as the Rust caller would stop
on the first non-Ok result). -/
def writeAll (dict : List (List Nat)) : List Event → List Size → EncResult
  | [], stack => .ok [] stack
  | e :: es, stack =>
    match write dict stack e with
    | .ok out stack2 =>
      match writeAll dict es stack2 with
      | .ok out2 stack3 => .ok (out ++ out2) stack3
      | r => r
    | r => r

/-- The accounting condition of section 4.4 of the spec under which an End is
legal for a frame: a known-length frame must have its remaining count at
zero; a streaming frame needs events-written at least required and
events-written mod modulo equal to required. -/
def endLegal : Size → Prop
  | .u64 n => n = 0
  | .streaming n modulo required => required ≤ n ∧ n % modulo = required

end Encoder

/-- Reading back w little-endian bytes of a value below 256 to the w recovers
the value and leaves the trailing input untouched. -/
theorem readLE_append (w : Nat) : ∀ (v : Nat) (rest : List Nat), v < 256 ^ w →
    readLE w (leBytes w v ++ rest) = some (v, rest) := by
  induction w with
  | zero =>
    intro v rest hv
    have : v = 0 := by simpa using hv
    subst this
    rfl
  | succ w ih =>
    intro v rest hv
    have hlt : v / 256 < 256 ^ w := by
      rw [Nat.div_lt_iff_lt_mul (by norm_num : 0 < 256)]
      calc v < 256 ^ (w + 1) := hv
        _ = 256 ^ w * 256 := by rw [pow_succ]
    simp only [leBytes, List.cons_append, readLE]
    rw [show (leBytes w (v / 256)).append rest = leBytes w (v / 256) ++ rest from rfl]
    rw [ih (v / 256) rest hlt]
    simp [Nat.mod_add_div]

/-- A fixed width read fails (byteorder end of file) when fewer bytes remain. -/
theorem readLE_short (w : Nat) : ∀ (input : List Nat), input.length < w → readLE w input = none := by
  induction w with
  | zero => intro input h; omega
  | succ w ih =>
    intro input h
    cases input with
    | nil => rfl
    | cons b r =>
      simp only [readLE]
      rw [ih r (by simpa using Nat.lt_of_succ_lt_succ (by simpa using h))]

/-- Tags with the high bit set satisfy the dictionary reference guard. -/
theorem land_dict_hi : ∀ i, i < 128 → (128 + i) &&& 0b10000000 = 0b10000000 := by decide
/-- The low seven bits of a dictionary reference tag recover the index. -/
theorem land_dict_lo : ∀ i, i < 128 → (128 + i) &&& 0b01111111 = i := by decide
/-- Inline string tags 0x60 to 0x7F do not satisfy the dictionary guard. -/
theorem land_inline_hi : ∀ l, l < 32 → ¬ (96 + l) &&& 0b10000000 = 0b10000000 := by decide
/-- Inline string tags 0x60 to 0x7F satisfy the inline string guard. -/
theorem land_inline_mid : ∀ l, l < 32 → (96 + l) &&& 0b11100000 = 0b01100000 := by decide
/-- The low five bits of an inline string tag recover the length. -/
theorem land_inline_lo : ∀ l, l < 32 → (96 + l) &&& 0b00011111 = l := by decide
/-- The inline string tag for length l below 32 is the byte 96 + l. -/
theorem lor_inline : ∀ l, l < 32 → 0b01100000 ||| l = 96 + l := by decide

/-- Evaluation of Decoder::read for a tag byte at or above 0x20, where only the
four bit-pattern guards of the dispatch remain. -/
theorem read_high (dict : List (List Nat)) (x : Nat) (inp : List Nat) (n : Nat) (ns : List Nat)
    (hn : ¬ n = 0) (hx : 0x20 ≤ x) :
    Decoder.read dict (x :: inp) (n :: ns) =
      (if x &&& 0b10000000 = 0b10000000 then
        match Decoder.read_dictionary dict (x &&& 0b01111111) with
        | .ok s => .ok (some (.string s)) inp ((n - 1) :: ns)
        | .error e => .err e
      else if x &&& 0b11100000 = 0b01100000 then
        match Decoder.read_string_data (x &&& 0b00011111) inp with
        | .ok (s, r) => .ok (some (.string s)) r ((n - 1) :: ns)
        | .error e => .err e
      else if x &&& 0b11110000 = 0b00100000 then
        .ok (some (.startArray (some (x &&& 0b00001111)))) inp
          ((x &&& 0b00001111) :: (n - 1) :: ns)
      else if x &&& 0b11110000 = 0b00110000 then
        .ok (some (.startMap (some (x &&& 0b00001111)))) inp
          (2 * (x &&& 0b00001111) :: (n - 1) :: ns)
      else .err (.streamError .invalidType)) := by
  simp only [Decoder.read]
  rw [if_neg hn]
  rw [if_neg (show ¬ x = 0x01 by omega)]
  rw [if_neg (show ¬ x = 0x02 by omega)]
  rw [if_neg (show ¬ x = 0x03 by omega)]
  rw [if_neg (show ¬ x = 0x08 by omega)]
  rw [if_neg (show ¬ x = 0x09 by omega)]
  rw [if_neg (show ¬ x = 0x0A by omega)]
  rw [if_neg (show ¬ x = 0x0B by omega)]
  rw [if_neg (show ¬ x = 0x0C by omega)]
  rw [if_neg (show ¬ x = 0x0D by omega)]
  rw [if_neg (show ¬ x = 0x10 by omega)]
  rw [if_neg (show ¬ x = 0x11 by omega)]
  rw [if_neg (show ¬ x = 0x12 by omega)]
  rw [if_neg (show ¬ x = 0x13 by omega)]
  rw [if_neg (show ¬ x = 0x14 by omega)]
  rw [if_neg (show ¬ x = 0x15 by omega)]
  rw [if_neg (show ¬ x = 0x16 by omega)]
  rw [if_neg (show ¬ x = 0x17 by omega)]
  rw [if_neg (show ¬ x = 0x18 by omega)]
  rw [if_neg (show ¬ x = 0x1A by omega)]
  rw [if_neg (show ¬ x = 0x1B by omega)]

/-- Decoder::read on an inline dictionary reference tag delegates to
read_dictionary on the low seven bits. -/
theorem read_dict_tag (dict : List (List Nat)) (inp : List Nat) (n : Nat) (ns : List Nat)
    (hn : ¬ n = 0) (i : Nat) (hi : i < 128) :
    Decoder.read dict ((128 + i) :: inp) (n :: ns) =
      (match Decoder.read_dictionary dict i with
      | .ok s => .ok (some (.string s)) inp ((n - 1) :: ns)
      | .error e => .err e) := by
  rw [read_high dict (128 + i) inp n ns hn (by omega)]
  rw [if_pos (land_dict_hi i hi), land_dict_lo i hi]

/-- Decoder::read on an inline string tag reads the length from the low five
bits and delegates to read_string_data. -/
theorem read_inline_tag (dict : List (List Nat)) (inp : List Nat) (n : Nat) (ns : List Nat)
    (hn : ¬ n = 0) (l : Nat) (hl : l < 32) :
    Decoder.read dict ((96 + l) :: inp) (n :: ns) =
      (match Decoder.read_string_data l inp with
      | .ok (s, r) => .ok (some (.string s)) r ((n - 1) :: ns)
      | .error e => .err e) := by
  rw [read_high dict (96 + l) inp n ns hn (by omega)]
  rw [if_neg (land_inline_hi l hl), if_pos (land_inline_mid l hl), land_inline_lo l hl]

/-- Decoder::read on the general string tag 0x09 delegates to read_string. -/
theorem read_tag9 (dict : List (List Nat)) (inp : List Nat) (n : Nat) (ns : List Nat)
    (hn : ¬ n = 0) :
    Decoder.read dict (0x09 :: inp) (n :: ns) =
      (match Decoder.read_string dict inp with
      | .ok (s, r) => .ok (some (.string s)) r ((n - 1) :: ns)
      | .error e => .err e) := by
  simp only [Decoder.read]
  rw [if_neg hn]
  rw [if_neg (show ¬ (0x09 : Nat) = 0x01 by decide)]
  rw [if_neg (show ¬ (0x09 : Nat) = 0x02 by decide)]
  rw [if_neg (show ¬ (0x09 : Nat) = 0x03 by decide)]
  rw [if_neg (show ¬ (0x09 : Nat) = 0x08 by decide)]
  rfl

/-- Shape of a successful Decoder::read step: a clean end happens only with one
frame on the stack, an End event shrinks the stack by one, a structural start
grows it by one, and every other event keeps its height. -/
theorem read_shape (dict : List (List Nat)) (input : List Nat) (stack : List Nat)
    (oe : Option Event) (input2 : List Nat) (stack2 : List Nat)
    (h : Decoder.read dict input stack = .ok oe input2 stack2) :
    (oe = none ∧ stack.length = 1) ∨
    (oe = some Event.end_ ∧ stack2.length + 1 = stack.length) ∨
    (∃ e, oe = some e ∧ Decoder.isStart e = true ∧ stack2.length = stack.length + 1) ∨
    (∃ e, oe = some e ∧ e ≠ Event.end_ ∧ Decoder.isStart e = false ∧
      stack2.length = stack.length) := by
  cases stack with
  | nil => simp [Decoder.read] at h
  | cons n ns =>
    by_cases hn : n = 0
    · subst hn
      simp only [Decoder.read, if_pos rfl] at h
      by_cases hns : ns.length = 0
      · rw [if_pos hns] at h
        injection h with h1 h2 h3
        subst h1
        have hnil : ns = [] := List.length_eq_zero.mp hns
        subst hnil
        left
        exact ⟨rfl, rfl⟩
      · rw [if_neg hns] at h
        injection h with h1 h2 h3
        subst h1
        subst h3
        right; left
        exact ⟨rfl, by simp⟩
    · cases input with
      | nil =>
        simp only [Decoder.read] at h
        rw [if_neg hn] at h
        exact absurd h (by simp)
      | cons x inp =>
        by_cases hx : 0x20 ≤ x
        · rw [read_high dict x inp n ns hn hx] at h
          repeat' split at h
          all_goals try (injection h with h1 h2 h3; subst h1; subst h2; subst h3)
          all_goals try (exact absurd h (by simp))
          all_goals (first
            | (right; right; left; exact ⟨_, rfl, rfl, by simp⟩)
            | (right; right; right; exact ⟨_, rfl, by simp, rfl, by simp⟩))
        · interval_cases x
          all_goals simp only [Decoder.read] at h
          all_goals rw [if_neg hn] at h
          all_goals norm_num at h
          all_goals repeat' split at h
          all_goals try (injection h with h1 h2 h3; subst h1; subst h2; subst h3)
          all_goals try (obtain ⟨h1, h2, h3⟩ := h; subst h1; subst h2; subst h3)
          all_goals try (exact absurd h (by simp))
          all_goals (first
            | (right; right; left; exact ⟨_, rfl, rfl, by simp⟩)
            | (right; right; right; exact ⟨_, rfl, by simp, rfl, by simp⟩))

/-- Unfolding of countStart over a cons. -/
theorem countStart_cons (e : Event) (es : List Event) :
    Decoder.countStart (e :: es) = Decoder.countStart es + (if Decoder.isStart e then 1 else 0) := by
  simp [Decoder.countStart, List.countP_cons]

/-- Unfolding of countEnd over a cons. -/
theorem countEnd_cons (e : Event) (es : List Event) :
    Decoder.countEnd (e :: es) = Decoder.countEnd es + (if e = Event.end_ then 1 else 0) := by
  simp [Decoder.countEnd, List.count_cons]

/-- Invariant of a full decoder run: when the decoder reaches the clean end of
stream, the number of structural starts plus the initial stack height equals
the number of End events plus one. -/
theorem readEvents_count (dict : List (List Nat)) :
    ∀ (fuel : Nat) (input stack : List Nat) (events : List Event),
      Decoder.readEvents dict fuel input stack = some events →
      Decoder.countStart events + stack.length = Decoder.countEnd events + 1 := by
  intro fuel
  induction fuel with
  | zero => intro input stack events h; simp [Decoder.readEvents] at h
  | succ fuel ih =>
    intro input stack events h
    simp only [Decoder.readEvents] at h
    cases hr : Decoder.read dict input stack with
    | ok oe input2 stack2 =>
      rw [hr] at h
      cases oe with
      | none =>
        simp only [] at h
        injection h with h1
        subst h1
        rcases read_shape dict input stack none input2 stack2 hr with ⟨_, hlen⟩ | ⟨hc, _⟩ | ⟨e, hc, _⟩ | ⟨e, hc, _⟩
        · simp [Decoder.countStart, Decoder.countEnd, hlen]
        · exact absurd hc (by simp)
        · exact absurd hc (by simp)
        · exact absurd hc (by simp)
      | some e =>
        simp only [] at h
        cases hre : Decoder.readEvents dict fuel input2 stack2 with
        | none => rw [hre] at h; simp at h
        | some es =>
          rw [hre] at h
          simp only [] at h
          injection h with h1
          subst h1
          have hcount := ih input2 stack2 es hre
          rcases read_shape dict input stack (some e) input2 stack2 hr with ⟨hc, _⟩ | ⟨hc, hlen⟩ | ⟨e2, hc, hs, hlen⟩ | ⟨e2, hc, hne, hs, hlen⟩
          · exact absurd hc (by simp)
          · have hcc : e = Event.end_ := by injection hc
            subst hcc
            rw [countStart_cons, countEnd_cons, if_neg (by simp [Decoder.isStart]), if_pos rfl]
            omega
          · have hcc : e = e2 := by injection hc
            have hs2 : Decoder.isStart e = true := by rw [hcc]; exact hs
            have hne2 : ¬ e = Event.end_ := by
              intro hh; rw [hh] at hs2; simp [Decoder.isStart] at hs2
            rw [countStart_cons, countEnd_cons, if_pos hs2, if_neg hne2]
            omega
          · have hcc : e = e2 := by injection hc
            have hs2 : Decoder.isStart e = false := by rw [hcc]; exact hs
            have hne2 : ¬ e = Event.end_ := by rw [hcc]; exact hne
            rw [countStart_cons, countEnd_cons, if_neg (by simp [hs2]), if_neg hne2]
            omega
    | err e => rw [hr] at h; simp at h
    | panicked => rw [hr] at h; simp at h

/-- With a parent frame present, Encoder::write accepts an End event exactly
when the popped frame satisfies the accounting condition endLegal. -/
theorem write_end_iff (dict : List (List Nat)) (f : Encoder.Size) (rest : List Encoder.Size)
    (hrest : rest ≠ []) :
    (∃ out stack2, Encoder.write dict (f :: rest) Event.end_ = .ok out stack2) ↔
      Encoder.endLegal f := by
  cases f with
  | u64 n =>
    cases n with
    | zero =>
      constructor
      · intro _
        simp [Encoder.endLegal]
      · intro _
        refine ⟨[], rest, ?_⟩
        have hlen : rest.length ≠ 0 := fun hh => hrest (List.length_eq_zero.mp hh)
        simp [Encoder.write, hlen]
    | succ k =>
      constructor
      · rintro ⟨out, stack2, hw⟩
        simp [Encoder.write] at hw
      · intro hlegal
        exact absurd hlegal (by simp [Encoder.endLegal])
  | streaming n m r =>
    by_cases hcond : r ≤ n ∧ n % m = r
    · constructor
      · intro _
        exact hcond
      · intro _
        refine ⟨[], rest, ?_⟩
        simp only [Encoder.write]
        rw [if_neg (by simp)]
        simp only [if_pos hcond]
    · constructor
      · rintro ⟨out, stack2, hw⟩
        simp only [Encoder.write] at hw
        rw [if_neg (by simp)] at hw
        rw [if_neg hcond] at hw
        exact absurd hw (by simp)
      · intro hlegal
        exact absurd hlegal hcond

/-- C2 (amended): the encoder has no permanent failure flag and no InvalidState
error code: the encoder ErrorCode enum has exactly EndOfStream,
InvalidDictionaryIndex, InvalidEnd and MissingEnd.  A structural violation
pops the offending frame and leaves the rest of the stack in place: with an
empty stack every subsequent write fails with EndOfStream, and after a
MissingEnd below the root (the concrete four event run) a subsequent write
runs against the parent frame and succeeds. -/
theorem C2_no_poisoning :
    (∀ (dict : List (List Nat)) (e : Event),
      Encoder.write dict [] e = .err (.streamError .endOfStream) []) ∧
    (∀ c : Encoder.ErrorCode, c = .endOfStream ∨ c = .invalidDictionaryIndex ∨
      c = .invalidEnd ∨ c = .missingEnd) ∧
    (Encoder.writeAll []
      [Event.startArray (some 2), Event.startStruct (some 0), Event.nil, Event.nil]
      [Encoder.Size.u64 1] =
      .err (.streamError .missingEnd) [Encoder.Size.u64 1, Encoder.Size.u64 0]) ∧
    (Encoder.write [] [Encoder.Size.u64 1, Encoder.Size.u64 0] Event.nil =
      .ok [0x01] [Encoder.Size.u64 0, Encoder.Size.u64 0]) := by
  refine ⟨fun dict e => rfl, fun c => by cases c <;> simp, by decide, by decide⟩

/-- C2 counterexample: writing End at a fresh encoder fails with InvalidEnd and
leaves the stack empty; the next write returns EndOfStream, not an
InvalidState error — no InvalidState code exists in encoder_error.rs. -/
theorem C2_counterexample :
    Encoder.write [] [Encoder.Size.u64 1] Event.end_ = .err (.streamError .invalidEnd) [] ∧
    Encoder.write [] [] Event.nil = .err (.streamError .endOfStream) [] := by
  exact ⟨by decide, by decide⟩

/-- C3: Encoder::write is not total at its public interface.  In any state that
accepts a value event, a Fixnum event, a Binary whose length reaches 0xEF, a
non dictionary String whose byte length reaches 0xEF, a dictionary String
whose index exceeds 127, any structural start whose declared length reaches
0xEF, and every streaming header (None size, whose Streaming size reaches
write_length) all panic instead of returning an EncoderResult. -/
theorem C3_write_panics (dict : List (List Nat)) (remaining : Encoder.Size)
    (rest : List Encoder.Size) (h : remaining ≠ Encoder.Size.u64 0) :
    (∀ v, Encoder.write dict (remaining :: rest) (Event.fixnum v) = .panicked) ∧
    (∀ v, 0xEF ≤ List.length v →
      Encoder.write dict (remaining :: rest) (Event.binary v) = .panicked) ∧
    (∀ s, Encoder.dictIndex dict s = none → 0xEF ≤ List.length s →
      Encoder.write dict (remaining :: rest) (Event.string s) = .panicked) ∧
    (∀ s i, Encoder.dictIndex dict s = some i → 127 < i →
      Encoder.write dict (remaining :: rest) (Event.string s) = .panicked) ∧
    (∀ n, 0xEF ≤ n →
      Encoder.write dict (remaining :: rest) (Event.startArray (some n)) = .panicked) ∧
    (∀ n, 0xEF ≤ n →
      Encoder.write dict (remaining :: rest) (Event.startStruct (some n)) = .panicked) ∧
    (∀ n, 0xEF ≤ n →
      Encoder.write dict (remaining :: rest) (Event.startMap (some n)) = .panicked) ∧
    (∀ n, 0xEF ≤ n →
      Encoder.write dict (remaining :: rest) (Event.startOpenStruct (some n)) = .panicked) ∧
    (Encoder.write dict (remaining :: rest) (Event.startArray none) = .panicked) ∧
    (Encoder.write dict (remaining :: rest) (Event.startStruct none) = .panicked) ∧
    (Encoder.write dict (remaining :: rest) (Event.startMap none) = .panicked) ∧
    (Encoder.write dict (remaining :: rest) (Event.startOpenStruct none) = .panicked) := by
  refine ⟨?_, ?_, ?_, ?_, ?_, ?_, ?_, ?_, ?_, ?_, ?_, ?_⟩
  · intro v
    simp [Encoder.write, h]
  · intro v hv
    simp [Encoder.write, h, Encoder.write_length, Nat.not_lt.mpr hv]
  · intro s hnone hlen
    simp [Encoder.write, h, Encoder.write_string, hnone, Encoder.write_length,
      Nat.not_lt.mpr hlen]
  · intro s i hsome hi
    have hi2 : ¬ i ≤ 127 := by omega
    simp [Encoder.write, h, Encoder.write_string, hsome, hi2]
  · intro n hn
    have h15 : ¬ n < 0b00001111 := by omega
    have hEF : ¬ n < 0xEF := by omega
    simp [Encoder.write, h, Encoder.write_length, h15, hEF]
  · intro n hn
    have hEF : ¬ n < 0xEF := by omega
    simp [Encoder.write, h, Encoder.write_length, hEF]
  · intro n hn
    have h15 : ¬ n < 0b00001111 := by omega
    have hEF : ¬ 2 * n < 0xEF := by omega
    simp [Encoder.write, h, Encoder.write_length, h15, hEF]
  · intro n hn
    have hEF : ¬ n < 0xEF := by omega
    simp [Encoder.write, h, Encoder.write_length, hEF]
  · simp [Encoder.write, h, Encoder.write_length]
  · simp [Encoder.write, h, Encoder.write_length]
  · simp [Encoder.write, h, Encoder.write_length]
  · simp [Encoder.write, h, Encoder.write_length]

/-- C3 witness: the panic cases at concrete inputs. -/
theorem C3_write_panics_witness :
    Encoder.write [] [Encoder.Size.u64 1] (Event.fixnum []) = .panicked ∧
    Encoder.write [] [Encoder.Size.u64 1] (Event.startArray none) = .panicked ∧
    Encoder.write [] [Encoder.Size.u64 1] (Event.binary (List.replicate 0xEF 0)) = .panicked := by
  refine ⟨(C3_write_panics [] (Encoder.Size.u64 1) [] (by decide)).1 [],
    (C3_write_panics [] (Encoder.Size.u64 1) [] (by decide)).2.2.2.2.2.2.2.2.1,
    (C3_write_panics [] (Encoder.Size.u64 1) [] (by decide)).2.1 (List.replicate 0xEF 0)
      (by norm_num)⟩

/-- C8 counterexample: StartStruct with declared length 1, one child event,
then a premature End fails with InvalidEnd, which is a different code than
the MissingEnd the claim names. -/
theorem C8_counterexample :
    Encoder.writeAll [] [Event.startStruct (some 1), Event.nil, Event.end_]
      [Encoder.Size.u64 1] = .err (.streamError .invalidEnd) [Encoder.Size.u64 0] ∧
    Encoder.ErrorCode.invalidEnd ≠ Encoder.ErrorCode.missingEnd := by
  exact ⟨by decide, by decide⟩

/-- C8 (amended): closing a struct before its declared slots are filled fails
with InvalidEnd; MissingEnd is returned when a non End event is written to a
frame whose declared count is already exhausted. -/
theorem C8_premature_end :
    (Encoder.writeAll [] [Event.startStruct (some 1), Event.nil, Event.end_]
      [Encoder.Size.u64 1] = .err (.streamError .invalidEnd) [Encoder.Size.u64 0]) ∧
    (∀ (dict : List (List Nat)) (e : Event) (rest : List Encoder.Size), e ≠ Event.end_ →
      Encoder.write dict (Encoder.Size.u64 0 :: rest) e =
        .err (.streamError .missingEnd) rest) := by
  refine ⟨by decide, ?_⟩
  intro dict e rest he
  simp [Encoder.write, he]

/-- C8 witness: a non End event on an exhausted frame at a concrete state. -/
theorem C8_premature_end_witness :
    Encoder.write [] [Encoder.Size.u64 0] Event.nil =
      .err (.streamError .missingEnd) [] := by
  exact C8_premature_end.2 [] Event.nil [] (by decide)

/-- C9: every byte stream the decoder consumes to the clean end of stream
signal yields as many End events as structural start events; and on the
encoder an End written while a composite is open (a parent frame exists) is
accepted exactly when the current frame satisfies the accounting condition:
known length frames need remaining count zero, streaming frames need events
written at least required and congruent to required modulo modulo. -/
theorem C9_structural_soundness :
    (∀ (dict : List (List Nat)) (fuel : Nat) (input : List Nat) (events : List Event),
      Decoder.readEvents dict fuel input [1] = some events →
      Decoder.countStart events = Decoder.countEnd events) ∧
    (∀ (dict : List (List Nat)) (f : Encoder.Size) (rest : List Encoder.Size),
      rest ≠ [] →
      ((∃ out stack2, Encoder.write dict (f :: rest) Event.end_ = .ok out stack2) ↔
        Encoder.endLegal f)) := by
  constructor
  · intro dict fuel input events h
    have h2 := readEvents_count dict fuel input [1] events h
    simp only [List.length_cons, List.length_nil] at h2
    omega
  · intro dict f rest hrest
    exact write_end_iff dict f rest hrest

/-- C9 witness: the counting equality on a concrete decoded document and the
End acceptance at a concrete exhausted frame. -/
theorem C9_structural_soundness_witness :
    Decoder.countStart [Event.startArray (some 1), Event.nil, Event.end_] =
      Decoder.countEnd [Event.startArray (some 1), Event.nil, Event.end_] ∧
    ((∃ out stack2,
        Encoder.write [] [Encoder.Size.u64 0, Encoder.Size.u64 0] Event.end_ = .ok out stack2) ↔
      Encoder.endLegal (Encoder.Size.u64 0)) := by
  constructor
  · exact C9_structural_soundness.1 [] 4 [0x21, 0x01] _ (by decide)
  · exact C9_structural_soundness.2 [] (Encoder.Size.u64 0) [Encoder.Size.u64 0] (by decide)

/-- C4 counterexample: the first byte 0xF0 does not introduce an explicit
width; read_length fails with InvalidLength on it, while 0xF1 is the one
byte width marker. -/
theorem C4_counterexample :
    Decoder.read_length [0xF0, 0x05] = .error (.streamError .invalidLength) ∧
    Decoder.read_length [0xF1, 0x05] = .ok (0x05, []) := by
  exact ⟨rfl, rfl⟩

/-- C4 (amended): a single byte below 0xEF decodes as the value itself; the
marker bytes 0xF1, 0xF2, 0xF3 and 0xF4 introduce little-endian widths of 1,
2, 4 and 8 bytes whose payload is the value; and every other first byte at or
above 0xEF — including 0xF0 — fails with InvalidLength. -/
theorem C4_length_codec (b v : Nat) (rest : List Nat) :
    (b < 0xEF → Decoder.read_length (b :: rest) = .ok (b, rest)) ∧
    (v < 2 ^ 8 → Decoder.read_length (0xF1 :: leBytes 1 v ++ rest) = .ok (v, rest)) ∧
    (v < 2 ^ 16 → Decoder.read_length (0xF2 :: leBytes 2 v ++ rest) = .ok (v, rest)) ∧
    (v < 2 ^ 32 → Decoder.read_length (0xF3 :: leBytes 4 v ++ rest) = .ok (v, rest)) ∧
    (v < 2 ^ 64 → Decoder.read_length (0xF4 :: leBytes 8 v ++ rest) = .ok (v, rest)) ∧
    (0xEF ≤ b → b ≠ 0xF1 → b ≠ 0xF2 → b ≠ 0xF3 → b ≠ 0xF4 →
      Decoder.read_length (b :: rest) = .error (.streamError .invalidLength)) := by
  refine ⟨?_, ?_, ?_, ?_, ?_, ?_⟩
  · intro hb
    simp [Decoder.read_length, hb]
  · intro hv
    simp [Decoder.read_length, readLE_append 1 v rest (by simpa using hv)]
  · intro hv
    simp [Decoder.read_length, readLE_append 2 v rest (by simpa using hv)]
  · intro hv
    simp [Decoder.read_length, readLE_append 4 v rest (by simpa using hv)]
  · intro hv
    simp [Decoder.read_length, readLE_append 8 v rest (by simpa using hv)]
  · intro hb h1 h2 h3 h4
    have hb2 : ¬ b < 0xEF := by omega
    simp [Decoder.read_length, hb2, h1, h2, h3, h4]

/-- C4 witness: the length codec at concrete inputs. -/
theorem C4_length_codec_witness :
    Decoder.read_length [0x05] = .ok (0x05, []) ∧
    Decoder.read_length [0xF2, 0x34, 0x12] = .ok (0x1234, []) ∧
    Decoder.read_length [0xF9] = .error (.streamError .invalidLength) := by
  refine ⟨(C4_length_codec 0x05 0 []).1 (by norm_num), ?_, ?_⟩
  · exact (C4_length_codec 0 0x1234 []).2.2.1 (by norm_num)
  · exact (C4_length_codec 0xF9 0 []).2.2.2.2.2 (by norm_num) (by norm_num) (by norm_num)
      (by norm_num) (by norm_num)

/-- C5 counterexample: the empty non dictionary string — short enough for the
compact inline form 0x60 — is emitted in the general literal form 0x09 0x00,
so the encoder does emit a non compact tag where the compact inline string
form applies. -/
theorem C5_counterexample :
    Encoder.write [] [Encoder.Size.u64 1] (Event.string []) =
      .ok [0x09, 0x00] [Encoder.Size.u64 0] ∧
    ([0x09, 0x00] : List Nat) ≠ [0b01100000] := by
  exact ⟨by decide, by decide⟩

/-- C5 (amended): a dictionary resident string with index at most 127 is
always emitted as a one byte dictionary reference, never literally, whatever
its length, and a larger index panics (still never a literal); a non
dictionary string is always emitted in the general literal form 0x09 plus
length plus bytes — the encoder never emits the compact inline string form;
arrays and maps with declared length below 15 are emitted with the compact
inline headers. -/
theorem C5_canonical_forms (dict : List (List Nat)) (remaining : Encoder.Size)
    (rest : List Encoder.Size) (h : remaining ≠ Encoder.Size.u64 0) :
    (∀ s i, Encoder.dictIndex dict s = some i → i ≤ 0b01111111 →
      Encoder.write dict (remaining :: rest) (Event.string s) =
        .ok [i ||| 0b10000000] (Encoder.push_stack remaining :: rest)) ∧
    (∀ s i, Encoder.dictIndex dict s = some i → 0b01111111 < i →
      Encoder.write dict (remaining :: rest) (Event.string s) = .panicked) ∧
    (∀ s, Encoder.dictIndex dict s = none → List.length s < 0xEF →
      Encoder.write dict (remaining :: rest) (Event.string s) =
        .ok (0x09 :: List.length s :: s) (Encoder.push_stack remaining :: rest)) ∧
    (∀ n, n < 15 → Encoder.write dict (remaining :: rest) (Event.startArray (some n)) =
      .ok [0b00100000 ||| n] (Encoder.Size.u64 n :: Encoder.push_stack remaining :: rest)) ∧
    (∀ n, n < 15 → Encoder.write dict (remaining :: rest) (Event.startMap (some n)) =
      .ok [0b00110000 ||| n]
        (Encoder.Size.u64 (2 * n) :: Encoder.push_stack remaining :: rest)) := by
  refine ⟨?_, ?_, ?_, ?_, ?_⟩
  · intro s i hsome hle
    simp [Encoder.write, h, Encoder.write_string, hsome, hle]
  · intro s i hsome hgt
    have hi2 : ¬ i ≤ 0b01111111 := by omega
    simp [Encoder.write, h, Encoder.write_string, hsome, hi2]
  · intro s hnone hlen
    simp [Encoder.write, h, Encoder.write_string, hnone, Encoder.write_length, hlen]
  · intro n hn
    simp [Encoder.write, h, hn]
  · intro n hn
    simp [Encoder.write, h, hn]

/-- C5 witness: the dictionary reference and the compact array header at
concrete inputs. -/
theorem C5_canonical_forms_witness :
    Encoder.write [[0x61]] [Encoder.Size.u64 1] (Event.string [0x61]) =
      .ok [0x80] [Encoder.Size.u64 0] ∧
    Encoder.write [] [Encoder.Size.u64 1] (Event.startArray (some 2)) =
      .ok [0x22] [Encoder.Size.u64 2, Encoder.Size.u64 0] := by
  constructor
  · exact (C5_canonical_forms [[0x61]] (Encoder.Size.u64 1) [] (by decide)).1 [0x61] 0
      (by decide) (by decide)
  · exact (C5_canonical_forms [] (Encoder.Size.u64 1) [] (by decide)).2.2.2.1 2 (by decide)

/-- C7 counterexample: a length escape marker with insufficient trailing
payload fails with the wrapped IoError, which differs from the typed
StreamError UnexpectedEOF the claim names. -/
theorem C7_counterexample :
    Decoder.read [] [0x0A, 0xF2, 0x01] [1] = .err .ioError ∧
    Decoder.read_length [0xF2, 0x01] = .error .ioError ∧
    Decoder.DecoderError.ioError ≠ .streamError .unexpectedEOF := by
  exact ⟨rfl, rfl, by decide⟩

/-- C7 (amended): a length escape marker whose fixed width payload exceeds the
remaining buffer fails with the wrapped untyped IoError — the byteorder end
of file is converted by the From impl of decoder_error.rs into IoError, not
into a stream error code; StreamError(UnexpectedEOF) arises when a
successfully decoded declared length exceeds the remaining buffer, in
read_string_data and read_binary. -/
theorem C7_insufficient_payload (rest input : List Nat) (length : Nat) :
    (rest.length < 1 → Decoder.read_length (0xF1 :: rest) = .error .ioError) ∧
    (rest.length < 2 → Decoder.read_length (0xF2 :: rest) = .error .ioError) ∧
    (rest.length < 4 → Decoder.read_length (0xF3 :: rest) = .error .ioError) ∧
    (rest.length < 8 → Decoder.read_length (0xF4 :: rest) = .error .ioError) ∧
    (input.length < length →
      Decoder.read_string_data length input = .error (.streamError .unexpectedEOF)) ∧
    (∀ r, Decoder.read_length input = .ok (length, r) → r.length < length →
      Decoder.read_binary input = .error (.streamError .unexpectedEOF)) := by
  refine ⟨?_, ?_, ?_, ?_, ?_, ?_⟩
  · intro hr
    simp [Decoder.read_length, readLE_short 1 rest hr]
  · intro hr
    simp [Decoder.read_length, readLE_short 2 rest hr]
  · intro hr
    simp [Decoder.read_length, readLE_short 4 rest hr]
  · intro hr
    simp [Decoder.read_length, readLE_short 8 rest hr]
  · intro hl
    simp [Decoder.read_string_data, hl]
  · intro r heq hl
    simp [Decoder.read_binary, heq, hl]

/-- C7 witness: the IoError and UnexpectedEOF outcomes at concrete inputs. -/
theorem C7_insufficient_payload_witness :
    Decoder.read_length [0xF2, 0x01] = .error .ioError ∧
    Decoder.read_string_data 5 [0x61] = .error (.streamError .unexpectedEOF) ∧
    Decoder.read_binary [0x05, 0x61] = .error (.streamError .unexpectedEOF) := by
  refine ⟨(C7_insufficient_payload [0x01] [] 0).2.1 (by norm_num), ?_, ?_⟩
  · exact (C7_insufficient_payload [] [0x61] 5).2.2.2.2.1 (by norm_num)
  · exact (C7_insufficient_payload [] [0x05, 0x61] 5).2.2.2.2.2 [0x61] rfl (by norm_num)

/-- C6: for every index width — the single byte inline form with the high bit
set and the 1, 2, 4 and 8 byte dictionary index escapes 0xF5 to 0xF8 behind
the string tag 0x09 — decoding a dictionary reference whose index is at or
beyond the dictionary length fails with InvalidDictionaryIndex, and an in
range index yields a String event equal to the dictionary entry at that
position. -/
theorem C6_dictionary_bounds (dict : List (List Nat)) (n : Nat) (ns inp : List Nat)
    (hn : ¬ n = 0) :
    (∀ i, i < 128 →
      (dict.length ≤ i →
        Decoder.read dict ((128 + i) :: inp) (n :: ns) =
          .err (.streamError .invalidDictionaryIndex)) ∧
      (∀ s, dict[i]? = some s →
        Decoder.read dict ((128 + i) :: inp) (n :: ns) =
          .ok (some (.string s)) inp ((n - 1) :: ns))) ∧
    (∀ i, i < 2 ^ 8 →
      (dict.length ≤ i →
        Decoder.read dict (0x09 :: 0xF5 :: (leBytes 1 i ++ inp)) (n :: ns) =
          .err (.streamError .invalidDictionaryIndex)) ∧
      (∀ s, dict[i]? = some s →
        Decoder.read dict (0x09 :: 0xF5 :: (leBytes 1 i ++ inp)) (n :: ns) =
          .ok (some (.string s)) inp ((n - 1) :: ns))) ∧
    (∀ i, i < 2 ^ 16 →
      (dict.length ≤ i →
        Decoder.read dict (0x09 :: 0xF6 :: (leBytes 2 i ++ inp)) (n :: ns) =
          .err (.streamError .invalidDictionaryIndex)) ∧
      (∀ s, dict[i]? = some s →
        Decoder.read dict (0x09 :: 0xF6 :: (leBytes 2 i ++ inp)) (n :: ns) =
          .ok (some (.string s)) inp ((n - 1) :: ns))) ∧
    (∀ i, i < 2 ^ 32 →
      (dict.length ≤ i →
        Decoder.read dict (0x09 :: 0xF7 :: (leBytes 4 i ++ inp)) (n :: ns) =
          .err (.streamError .invalidDictionaryIndex)) ∧
      (∀ s, dict[i]? = some s →
        Decoder.read dict (0x09 :: 0xF7 :: (leBytes 4 i ++ inp)) (n :: ns) =
          .ok (some (.string s)) inp ((n - 1) :: ns))) ∧
    (∀ i, i < 2 ^ 64 →
      (dict.length ≤ i →
        Decoder.read dict (0x09 :: 0xF8 :: (leBytes 8 i ++ inp)) (n :: ns) =
          .err (.streamError .invalidDictionaryIndex)) ∧
      (∀ s, dict[i]? = some s →
        Decoder.read dict (0x09 :: 0xF8 :: (leBytes 8 i ++ inp)) (n :: ns) =
          .ok (some (.string s)) inp ((n - 1) :: ns))) := by
  refine ⟨?_, ?_, ?_, ?_, ?_⟩
  · intro i hi
    constructor
    · intro hge
      rw [read_dict_tag dict inp n ns hn i hi]
      simp [Decoder.read_dictionary, List.getElem?_eq_none hge]
    · intro s hs
      rw [read_dict_tag dict inp n ns hn i hi]
      simp [Decoder.read_dictionary, hs]
  · intro i hi
    have hrs : Decoder.read_string dict (0xF5 :: (leBytes 1 i ++ inp)) =
        (match Decoder.read_dictionary dict i with
        | .ok s => .ok (s, inp)
        | .error e => .error e) := by
      simp [Decoder.read_string, readLE_append 1 i inp (by simpa using hi)]
    constructor
    · intro hge
      rw [read_tag9 dict _ n ns hn, hrs]
      simp [Decoder.read_dictionary, List.getElem?_eq_none hge]
    · intro s hs
      rw [read_tag9 dict _ n ns hn, hrs]
      simp [Decoder.read_dictionary, hs]
  · intro i hi
    have hrs : Decoder.read_string dict (0xF6 :: (leBytes 2 i ++ inp)) =
        (match Decoder.read_dictionary dict i with
        | .ok s => .ok (s, inp)
        | .error e => .error e) := by
      simp [Decoder.read_string, readLE_append 2 i inp (by simpa using hi)]
    constructor
    · intro hge
      rw [read_tag9 dict _ n ns hn, hrs]
      simp [Decoder.read_dictionary, List.getElem?_eq_none hge]
    · intro s hs
      rw [read_tag9 dict _ n ns hn, hrs]
      simp [Decoder.read_dictionary, hs]
  · intro i hi
    have hrs : Decoder.read_string dict (0xF7 :: (leBytes 4 i ++ inp)) =
        (match Decoder.read_dictionary dict i with
        | .ok s => .ok (s, inp)
        | .error e => .error e) := by
      simp [Decoder.read_string, readLE_append 4 i inp (by simpa using hi)]
    constructor
    · intro hge
      rw [read_tag9 dict _ n ns hn, hrs]
      simp [Decoder.read_dictionary, List.getElem?_eq_none hge]
    · intro s hs
      rw [read_tag9 dict _ n ns hn, hrs]
      simp [Decoder.read_dictionary, hs]
  · intro i hi
    have hrs : Decoder.read_string dict (0xF8 :: (leBytes 8 i ++ inp)) =
        (match Decoder.read_dictionary dict i with
        | .ok s => .ok (s, inp)
        | .error e => .error e) := by
      simp [Decoder.read_string, readLE_append 8 i inp (by simpa using hi)]
    constructor
    · intro hge
      rw [read_tag9 dict _ n ns hn, hrs]
      simp [Decoder.read_dictionary, List.getElem?_eq_none hge]
    · intro s hs
      rw [read_tag9 dict _ n ns hn, hrs]
      simp [Decoder.read_dictionary, hs]

/-- C6 witness: the byte 0x80 with the dictionary holding the four byte UTF-8
sequence F0 9F 8D AA decodes to that string, and the same byte with an empty
dictionary fails with InvalidDictionaryIndex; likewise for the two byte
escape 0xF6 with index zero. -/
theorem C6_dictionary_bounds_witness :
    Decoder.read [[0xF0, 0x9F, 0x8D, 0xAA]] [0x80] [1] =
      .ok (some (.string [0xF0, 0x9F, 0x8D, 0xAA])) [] [0] ∧
    Decoder.read [] [0x80] [1] = .err (.streamError .invalidDictionaryIndex) ∧
    Decoder.read [[0xF0, 0x9F, 0x8D, 0xAA]] [0x09, 0xF6, 0x00, 0x00] [1] =
      .ok (some (.string [0xF0, 0x9F, 0x8D, 0xAA])) [] [0] ∧
    Decoder.read [] [0x09, 0xF6, 0x00, 0x00] [1] =
      .err (.streamError .invalidDictionaryIndex) := by
  refine ⟨?_, ?_, ?_, ?_⟩
  · exact ((C6_dictionary_bounds [[0xF0, 0x9F, 0x8D, 0xAA]] 1 [] [] (by decide)).1 0
      (by norm_num)).2 [0xF0, 0x9F, 0x8D, 0xAA] rfl
  · exact ((C6_dictionary_bounds [] 1 [] [] (by decide)).1 0 (by norm_num)).1 (by norm_num)
  · exact ((C6_dictionary_bounds [[0xF0, 0x9F, 0x8D, 0xAA]] 1 [] [] (by decide)).2.2.1 0
      (by norm_num)).2 [0xF0, 0x9F, 0x8D, 0xAA] rfl
  · exact ((C6_dictionary_bounds [] 1 [] [] (by decide)).2.2.1 0 (by norm_num)).1 (by norm_num)

/-- C10 counterexample: the tag 0x70 decodes as a 16 byte inline string, not
as a GUID — the core decoder has no GUID event at all — and the tag 0x7F
decodes as a 31 byte inline string, outside the claimed 0 to 14 length
range and the claimed 0b0110xxxx pattern. -/
theorem C10_counterexample :
    Decoder.read [] (0x70 :: List.replicate 16 0x61) [1] =
      .ok (some (.string (List.replicate 16 0x61))) [] [0] ∧
    Decoder.read [] (0x7F :: List.replicate 31 0x61) [1] =
      .ok (some (.string (List.replicate 31 0x61))) [] [0] := by
  exact ⟨by decide, by decide⟩

/-- C10 (amended): the compact inline string form covers the tag bytes
0b011xxxxx (0x60 to 0x7F), carrying a string length of 0 to 31 in the low
five bits; 0x70 falls inside this range and denotes a 16 byte inline string;
no GUID event exists in the decoder. -/
theorem C10_inline_string_range (dict : List (List Nat)) (n : Nat) (ns inp : List Nat)
    (hn : ¬ n = 0) :
    ∀ l, l < 32 → ∀ s : List Nat, s.length = l → utf8Valid s = true →
      Decoder.read dict ((0b01100000 ||| l) :: (s ++ inp)) (n :: ns) =
        .ok (some (.string s)) inp ((n - 1) :: ns) := by
  intro l hl s hlen hutf
  rw [lor_inline l hl]
  rw [read_inline_tag dict (s ++ inp) n ns hn l hl]
  subst hlen
  have h1 : ¬ s.length > (s ++ inp).length := by simp
  simp [Decoder.read_string_data, h1, List.take_left, List.drop_left, hutf]

/-- C10 witness: an inline string of length 3 at a concrete input. -/
theorem C10_inline_string_range_witness :
    Decoder.read [] [0x63, 0x61, 0x62, 0x63] [1] =
      .ok (some (.string [0x61, 0x62, 0x63])) [] [0] := by
  exact C10_inline_string_range [] 1 [] [] (by decide) 3 (by norm_num)
    [0x61, 0x62, 0x63] rfl (by decide)

/-- C1: the round-trip claim is right and the code has a slip that breaks it.
For the well formed event sequence StartMap(Some(15)) followed by 30 Nil
children and End, the general StartMap branch of Encoder::write reuses one
structure_size value — the doubled stack size 2 * 15 — for both the stack
push and the wire, so the wire carries length 30; the decoder (whose 0x0C
rule, also quoted in the comments at the bottom of encoder.rs, treats the
wire length as the element count and pushes twice that) returns
StartMap(Some(30)) as the first event and can never reach a clean end of
stream on these bytes.  The StartStruct and StartOpenStruct branches keep
separate stack_size and structure_size values, and the compact map branch
writes the element count, which marks the general map branch as a slip. -/
theorem C1_map_wire_length_bug :
    Encoder.writeAll []
      (Event.startMap (some 15) :: (List.replicate 30 Event.nil ++ [Event.end_]))
      [Encoder.Size.u64 1] =
      .ok (0x0C :: 30 :: List.replicate 30 0x01) [Encoder.Size.u64 0] ∧
    Decoder.read [] (0x0C :: 30 :: List.replicate 30 0x01) [1] =
      .ok (some (Event.startMap (some 30))) (List.replicate 30 0x01) [60, 0] ∧
    Decoder.readEvents [] 100 (0x0C :: 30 :: List.replicate 30 0x01) [1] = none := by
  exact ⟨by decide, by decide, by decide⟩

